import Mathlib

/-!
Verification development for the FocusWriter theme subsystem
(`src/theme.cpp`).  The C++ code is shallowly embedded: files are byte
lists with an openability flag, the theme store and the `Images/`
directory are association lists, `QSettings` is a typed key/value list,
and every operation of `theme.cpp` used by the specification claims is
translated into an executable Lean function.  Loops are rendered as
structural recursion (with an explicit fuel argument where the C++ loop
is not structural) so that every definition evaluates inside the kernel.
-/

set_option maxRecDepth 100000

/-- Model of a file on disk as seen through `QFile`: its byte content
(each byte a `Nat < 256`) and whether opening it for reading succeeds.
`QFile::size` is the content length (obtained by stat, available even
without opening). -/
structure MFile where
  content : List Nat
  openable : Bool
deriving DecidableEq, Repr

/-- Content-comparison loop of `compareFiles` (theme.cpp:51-56): while
file1 is not at end, read 1000-byte chunks from both files and compare
them; stop with `false` at the first differing chunk.  The fuel argument
makes the recursion structural; `chunkEq` supplies enough fuel for the
loop to run to completion. -/
def chunkEqAux : Nat → List Nat → List Nat → Bool
  | 0, _, _ => true
  | fuel + 1, a, b =>
    if a.isEmpty then true
    else if a.take 1000 = b.take 1000 then chunkEqAux fuel (a.drop 1000) (b.drop 1000)
    else false

def chunkEq (a b : List Nat) : Bool := chunkEqAux a.length a b

/-- Embedding of `compareFiles` (theme.cpp:39-63): sizes are compared
first (without opening); contents are compared in 1000-byte chunks only
if both files open, otherwise the files count as different. -/
def compareFiles (file1 file2 : MFile) : Bool :=
  if file1.content.length ≠ file2.content.length then
    false
  else if file1.openable && file2.openable then
    chunkEq file1.content file2.content
  else
    false

theorem chunkEqAux_iff (fuel : Nat) :
    ∀ a b : List Nat, a.length ≤ fuel → a.length = b.length →
      (chunkEqAux fuel a b = true ↔ a = b) := by
  induction fuel with
  | zero =>
    intro a b hfuel hlen
    have ha : a = [] := List.eq_nil_of_length_eq_zero (Nat.le_zero.1 hfuel)
    subst ha
    have hb : b = [] := List.eq_nil_of_length_eq_zero hlen.symm
    subst hb
    simp [chunkEqAux]
  | succ fuel ih =>
    intro a b hfuel hlen
    rw [chunkEqAux]
    by_cases ha : a.isEmpty
    · rw [if_pos ha]
      rw [List.isEmpty_iff] at ha
      subst ha
      have hb : b = [] := List.eq_nil_of_length_eq_zero hlen.symm
      subst hb
      simp
    · rw [if_neg ha]
      rw [List.isEmpty_iff] at ha
      by_cases ht : a.take 1000 = b.take 1000
      · rw [if_pos ht]
        have hfuel' : (a.drop 1000).length ≤ fuel := by
          simp only [List.length_drop]
          have h1 : 1 ≤ a.length := List.length_pos.2 ha
          omega
        have hlen' : (a.drop 1000).length = (b.drop 1000).length := by
          simp [List.length_drop, hlen]
        rw [ih _ _ hfuel' hlen']
        constructor
        · intro hdrop
          calc a = a.take 1000 ++ a.drop 1000 := (List.take_append_drop _ _).symm
            _ = b.take 1000 ++ b.drop 1000 := by rw [ht, hdrop]
            _ = b := List.take_append_drop _ _
        · intro hab; rw [hab]
      · rw [if_neg ht]
        simp only [Bool.false_eq_true, false_iff]
        intro hab
        exact ht (by rw [hab])

theorem chunkEq_iff (a b : List Nat) (h : a.length = b.length) :
    chunkEq a b = true ↔ a = b :=
  chunkEqAux_iff a.length a b le_rfl h

/-- C9: `compareFiles` reports two files equal exactly when both open
successfully, their sizes match and the chunkwise content comparison
succeeds — equivalently, when both are openable and have identical byte
content.  In particular an open failure on either side always yields
"files differ". -/
theorem compareFiles_spec (file1 file2 : MFile) :
    compareFiles file1 file2 = true ↔
      file1.openable = true ∧ file2.openable = true ∧
      file1.content = file2.content := by
  unfold compareFiles
  by_cases hlen : file1.content.length ≠ file2.content.length
  · rw [if_pos hlen]
    simp only [Bool.false_eq_true, false_iff, not_and]
    intro _ _ hc
    exact hlen (by rw [hc])
  · rw [if_neg hlen]
    push_neg at hlen
    by_cases hop : file1.openable && file2.openable
    · rw [if_pos hop, chunkEq_iff _ _ hlen]
      simp only [Bool.and_eq_true] at hop
      simp [hop.1, hop.2]
    · rw [if_neg hop]
      simp only [Bool.and_eq_true] at hop
      simp only [Bool.false_eq_true, false_iff, not_and]
      intro h1 h2
      exact fun _ => hop ⟨h1, h2⟩

/-! ### SHA-1 (`QCryptographicHash::hash(..., Sha1)`) and Qt string helpers

`copyImage` (theme.cpp:79) hashes `image.toUtf8()` — the UTF-8 bytes of
the *path string* passed in — with SHA-1 and hex-encodes the digest.
The hash is implemented here in full (FIPS 180-4) over byte lists. -/

/-- Rotate a 32-bit word left by `n` bits. -/
def rotl32 (n x : Nat) : Nat :=
  ((x <<< n) ||| (x >>> (32 - n))) % 4294967296

/-- UTF-8 encoding of a single character (`QString::toUtf8`). -/
def utf8Bytes1 (c : Char) : List Nat :=
  let n := c.toNat
  if n < 128 then [n]
  else if n < 2048 then [192 ||| (n >>> 6), 128 ||| (n &&& 63)]
  else if n < 65536 then
    [224 ||| (n >>> 12), 128 ||| ((n >>> 6) &&& 63), 128 ||| (n &&& 63)]
  else
    [240 ||| (n >>> 18), 128 ||| ((n >>> 12) &&& 63),
     128 ||| ((n >>> 6) &&& 63), 128 ||| (n &&& 63)]

/-- UTF-8 encoding of a string (`QString::toUtf8`). -/
def utf8Bytes (s : String) : List Nat :=
  (s.data.map utf8Bytes1).flatten

/-- SHA-1 message padding: `0x80`, zeros to 56 mod 64, then the bit
length as an 8-byte big-endian integer. -/
def sha1Pad (m : List Nat) : List Nat :=
  let len := m.length
  let zeros := (119 - len % 64) % 64
  let bitlen := 8 * len
  m ++ [128] ++ List.replicate zeros 0 ++
    [(bitlen >>> 56) % 256, (bitlen >>> 48) % 256, (bitlen >>> 40) % 256,
     (bitlen >>> 32) % 256, (bitlen >>> 24) % 256, (bitlen >>> 16) % 256,
     (bitlen >>> 8) % 256, bitlen % 256]

/-- Interpret a byte list as big-endian 32-bit words. -/
def bytesToWords : List Nat → List Nat
  | a :: b :: c :: d :: rest => (((a * 256 + b) * 256 + c) * 256 + d) :: bytesToWords rest
  | _ => []

/-- SHA-1 message schedule: extend 16 words to 80 by
`W[t] = rotl1 (W[t-3] xor W[t-8] xor W[t-14] xor W[t-16])`. -/
def sha1Schedule (w : List Nat) : Nat → List Nat
  | 0 => w
  | fuel + 1 =>
    let t := w.length
    let next := rotl32 1 ((w.getD (t - 3) 0) ^^^ (w.getD (t - 8) 0) ^^^
      (w.getD (t - 14) 0) ^^^ (w.getD (t - 16) 0))
    sha1Schedule (w ++ [next]) fuel

/-- SHA-1 round function (Ch, Parity, Maj, Parity by round quarter). -/
def sha1F (t b c d : Nat) : Nat :=
  if t < 20 then (b &&& c) ||| ((b ^^^ 4294967295) &&& d)
  else if t < 40 then b ^^^ c ^^^ d
  else if t < 60 then (b &&& c) ||| (b &&& d) ||| (c &&& d)
  else b ^^^ c ^^^ d

/-- SHA-1 round constants. -/
def sha1K (t : Nat) : Nat :=
  if t < 20 then 1518500249
  else if t < 40 then 1859775393
  else if t < 60 then 2400959708
  else 3395469782

/-- One SHA-1 compression round on the five-word working state. -/
def sha1Round (w : List Nat) (st : Nat × Nat × Nat × Nat × Nat) (t : Nat) :
    Nat × Nat × Nat × Nat × Nat :=
  let (a, b, c, d, e) := st
  let temp := (rotl32 5 a + sha1F t b c d + e + sha1K t + w.getD t 0) % 4294967296
  (temp, a, rotl32 30 b, c, d)

/-- Compress one 64-byte block into the running hash state. -/
def sha1Block (h : Nat × Nat × Nat × Nat × Nat) (block : List Nat) :
    Nat × Nat × Nat × Nat × Nat :=
  let w := sha1Schedule (bytesToWords block) 64
  let (h0, h1, h2, h3, h4) := h
  let (a, b, c, d, e) := (List.range 80).foldl (sha1Round w) h
  ((h0 + a) % 4294967296, (h1 + b) % 4294967296, (h2 + c) % 4294967296,
   (h3 + d) % 4294967296, (h4 + e) % 4294967296)

/-- Fold the padded message 64 bytes at a time (fuel-structural). -/
def sha1BlocksAux (h : Nat × Nat × Nat × Nat × Nat) : Nat → List Nat →
    Nat × Nat × Nat × Nat × Nat
  | 0, _ => h
  | fuel + 1, bytes =>
    if bytes.isEmpty then h
    else sha1BlocksAux (sha1Block h (bytes.take 64)) fuel (bytes.drop 64)

def sha1Blocks (h : Nat × Nat × Nat × Nat × Nat) (bytes : List Nat) :
    Nat × Nat × Nat × Nat × Nat :=
  sha1BlocksAux h (bytes.length / 64 + 1) bytes

/-- Big-endian bytes of a 32-bit word. -/
def wordBytes (x : Nat) : List Nat :=
  [(x >>> 24) % 256, (x >>> 16) % 256, (x >>> 8) % 256, x % 256]

/-- SHA-1 digest (20 bytes) of a byte list. -/
def sha1Digest (m : List Nat) : List Nat :=
  let (h0, h1, h2, h3, h4) :=
    sha1Blocks (1732584193, 4023233417, 2562383102, 271733878, 3285377520) (sha1Pad m)
  wordBytes h0 ++ wordBytes h1 ++ wordBytes h2 ++ wordBytes h3 ++ wordBytes h4

/-- Lowercase hex digit, as produced by `QByteArray::toHex`. -/
def hexDigit (n : Nat) : Char :=
  if n < 10 then Char.ofNat (48 + n) else Char.ofNat (87 + n)

/-- Two lowercase hex digits of one byte. -/
def byteHex (b : Nat) : List Char :=
  [hexDigit (b / 16), hexDigit (b % 16)]

/-- Lowercase hex string of a byte list (`QByteArray::toHex`). -/
def toHexStr (bytes : List Nat) : String :=
  String.mk ((bytes.map byteHex).flatten)

/-- Hex-encoded SHA-1 of a byte list:
`QCryptographicHash::hash(bytes, Sha1).toHex()`. -/
def sha1Hex (m : List Nat) : String := toHexStr (sha1Digest m)

/-- Final path component of a path (`QFileInfo::fileName`). -/
def pathFileName (path : String) : String :=
  (path.splitOn "/").getLastD path

/-- Extension after the last dot of the file name (`QFileInfo::suffix`);
empty when the file name has no dot. -/
def pathSuffix (path : String) : String :=
  let parts := (pathFileName path).splitOn "."
  if parts.length ≤ 1 then "" else parts.getLastD ""

/-- Lower-casing of a string (`QString::toLower`, ASCII range). -/
def strToLower (s : String) : String := s.toLower

/-! ### The `Images/` directory and `copyImage` (theme.cpp:67-92)

The directory is a list of `(filename, file)` entries; `entryList`
enumerates it in its (deterministic) stored order.  `QFile::copy` can
fail; the C++ code ignores its boolean result, so the embedding takes
the copy outcome as an explicit `copyOk` argument and—exactly like the
source—returns the computed filename regardless. -/

structure ImagesDir where
  entries : List (String × MFile)
deriving DecidableEq, Repr

/-- Whether a file of the given name exists in the directory
(`QDir::exists`). -/
def ImagesDir.existsFile (d : ImagesDir) (name : String) : Bool :=
  d.entries.any (fun e => e.1 == name)

/-- Scan loop of `copyImage` (theme.cpp:71-76): first stored file that
compares byte-equal to the source, if any. -/
def findMatch (src : MFile) : List (String × MFile) → Option String
  | [] => none
  | e :: rest => if compareFiles src e.2 then some e.1 else findMatch src rest

/-- Candidate filename (theme.cpp:81 for `id = 0`, theme.cpp:87 for the
collision disambiguators). -/
def candidateName (base suffix : String) (id : Nat) : String :=
  if id = 0 then base ++ "." ++ suffix
  else base ++ "-" ++ toString id ++ "." ++ suffix

/-- Collision loop of `copyImage` (theme.cpp:84-88), fuel-structural:
increment the disambiguator until the candidate name is free.  A free
name always exists among the first `entries.length + 1` candidates, so
`resolveName` supplies that much fuel. -/
def resolveNameAux (d : ImagesDir) (base suffix : String) : Nat → Nat → String
  | 0, id => candidateName base suffix id
  | fuel + 1, id =>
    if d.existsFile (candidateName base suffix id) then
      resolveNameAux d base suffix fuel (id + 1)
    else candidateName base suffix id

def resolveName (d : ImagesDir) (base suffix : String) : String :=
  resolveNameAux d base suffix (d.entries.length + 1) 0

/-- Embedding of `copyImage` (theme.cpp:67-92).  `image` is the source
path string, `srcFile` the file it denotes.  If a stored file is
byte-identical to the source, its name is returned and nothing changes.
Otherwise the candidate base name is the hex SHA-1 of the UTF-8 bytes of
the **path string** (theme.cpp:79 hashes `image.toUtf8()`), the
lower-cased suffix is appended, collisions are disambiguated, the file
is copied (when the copy succeeds) and the name returned either way. -/
def copyImage (d : ImagesDir) (image : String) (srcFile : MFile) (copyOk : Bool) :
    String × ImagesDir :=
  match findMatch srcFile d.entries with
  | some filename => (filename, d)
  | none =>
    let base := sha1Hex (utf8Bytes image)
    let suffix := strToLower (pathSuffix image)
    let filename := resolveName d base suffix
    let d' :=
      if copyOk then ImagesDir.mk (d.entries ++ [(filename, MFile.mk srcFile.content true)])
      else d
    (filename, d')

/-- C1 counterexample: two byte-identical source files at the paths
"a.png" and "b.png", interned into an empty Images directory, receive
different candidate filenames — the generated base name is a function of
the path string, not of the file bytes. -/
theorem copyImage_candidate_not_content_hash :
    (copyImage (ImagesDir.mk []) "a.png" (MFile.mk [1, 2, 3] true) true).1 ≠
    (copyImage (ImagesDir.mk []) "b.png" (MFile.mk [1, 2, 3] true) true).1 := by
  decide

/-- C1 (amended): when no byte-identical file exists and the plain
candidate name is free, the filename produced by `copyImage` is the
hex-encoded SHA-1 of the UTF-8 bytes of the source **path string** with
the source's lower-cased extension appended. -/
theorem copyImage_candidate_is_path_hash (d : ImagesDir) (image : String)
    (srcFile : MFile) (copyOk : Bool)
    (hmatch : findMatch srcFile d.entries = none)
    (hfree : d.existsFile (sha1Hex (utf8Bytes image) ++ "." ++ strToLower (pathSuffix image))
      = false) :
    (copyImage d image srcFile copyOk).1 =
      sha1Hex (utf8Bytes image) ++ "." ++ strToLower (pathSuffix image) := by
  unfold copyImage resolveName
  rw [hmatch]
  have hcand : candidateName (sha1Hex (utf8Bytes image)) (strToLower (pathSuffix image)) 0 =
      sha1Hex (utf8Bytes image) ++ "." ++ strToLower (pathSuffix image) := by
    simp [candidateName]
  simp only [resolveNameAux, hcand, hfree, Bool.false_eq_true, if_false]

theorem copyImage_candidate_is_path_hash_witness :
    (copyImage (ImagesDir.mk []) "a.png" (MFile.mk [1, 2, 3] true) true).1 =
      sha1Hex (utf8Bytes "a.png") ++ "." ++ strToLower (pathSuffix "a.png") :=
  copyImage_candidate_is_path_hash (ImagesDir.mk []) "a.png" (MFile.mk [1, 2, 3] true) true
    rfl rfl

/-- C2 counterexample: at a concrete input whose byte copy fails,
`copyImage` still returns the very filename the successful copy would
return (a non-empty name), while the Images directory gains no file —
the failure is not reported to the caller. -/
theorem copyImage_failure_not_reported :
    (copyImage (ImagesDir.mk []) "a.png" (MFile.mk [1, 2, 3] true) false).1 =
      (copyImage (ImagesDir.mk []) "a.png" (MFile.mk [1, 2, 3] true) true).1 ∧
    (copyImage (ImagesDir.mk []) "a.png" (MFile.mk [1, 2, 3] true) false).1 ≠ "" ∧
    (copyImage (ImagesDir.mk []) "a.png" (MFile.mk [1, 2, 3] true) false).2 =
      ImagesDir.mk [] := by
  refine ⟨rfl, ?_, rfl⟩
  decide

/-- C2 (amended): a failed byte copy is invisible to the caller of
`copyImage`: the directory is left unchanged (no partial entry), but the
function returns exactly the filename the successful copy would have
returned, so no failure is reported. -/
theorem copyImage_failed_copy_returns_name (d : ImagesDir) (image : String)
    (srcFile : MFile) :
    (copyImage d image srcFile false).2 = d ∧
    (copyImage d image srcFile false).1 = (copyImage d image srcFile true).1 := by
  unfold copyImage
  cases h : findMatch srcFile d.entries <;> simp

theorem findMatch_append (src : MFile) (l1 l2 : List (String × MFile)) :
    findMatch src (l1 ++ l2) =
      match findMatch src l1 with
      | some n => some n
      | none => findMatch src l2 := by
  induction l1 with
  | nil => simp [findMatch]
  | cons e rest ih =>
    by_cases h : compareFiles src e.2
    · simp [findMatch, h]
    · simp [findMatch, h, ih]

/-- C7: interning the same (readable) source file twice, with the copy
succeeding and no intervening changes, returns the same filename both
times and leaves the directory unchanged on the second call; when no
byte-identical file pre-existed, the two calls together store exactly
one new file. -/
theorem copyImage_idempotent (d : ImagesDir) (image : String) (srcFile : MFile)
    (hopen : srcFile.openable = true) :
    (copyImage (copyImage d image srcFile true).2 image srcFile true).1 =
      (copyImage d image srcFile true).1 ∧
    (copyImage (copyImage d image srcFile true).2 image srcFile true).2 =
      (copyImage d image srcFile true).2 ∧
    (findMatch srcFile d.entries = none →
      (copyImage d image srcFile true).2.entries.length = d.entries.length + 1) := by
  cases hm : findMatch srcFile d.entries with
  | some n =>
    unfold copyImage
    rw [hm]
    simp [hm]
  | none =>
    have hcmp : compareFiles srcFile (MFile.mk srcFile.content true) = true := by
      rw [compareFiles_spec]
      exact ⟨hopen, rfl, rfl⟩
    have hstep : copyImage d image srcFile true =
        (resolveName d (sha1Hex (utf8Bytes image)) (strToLower (pathSuffix image)),
         ImagesDir.mk (d.entries ++
           [(resolveName d (sha1Hex (utf8Bytes image)) (strToLower (pathSuffix image)),
             MFile.mk srcFile.content true)])) := by
      unfold copyImage
      rw [hm]
      rfl
    rw [hstep]
    refine ⟨?_, ?_, fun _ => by simp⟩
    · unfold copyImage
      dsimp only
      rw [findMatch_append, hm]
      simp [findMatch, hcmp]
    · unfold copyImage
      dsimp only
      rw [findMatch_append, hm]
      simp [findMatch, hcmp]

theorem copyImage_idempotent_witness :
    (MFile.mk [7, 7] true).openable = true ∧
    ((copyImage (copyImage (ImagesDir.mk []) "pic.png" (MFile.mk [7, 7] true) true).2
        "pic.png" (MFile.mk [7, 7] true) true).1 =
      (copyImage (ImagesDir.mk []) "pic.png" (MFile.mk [7, 7] true) true).1 ∧
    (copyImage (copyImage (ImagesDir.mk []) "pic.png" (MFile.mk [7, 7] true) true).2
        "pic.png" (MFile.mk [7, 7] true) true).2 =
      (copyImage (ImagesDir.mk []) "pic.png" (MFile.mk [7, 7] true) true).2 ∧
    (findMatch (MFile.mk [7, 7] true) (ImagesDir.mk []).entries = none →
      (copyImage (ImagesDir.mk []) "pic.png" (MFile.mk [7, 7] true) true).2.entries.length =
        (ImagesDir.mk []).entries.length + 1)) :=
  ⟨rfl, copyImage_idempotent (ImagesDir.mk []) "pic.png" (MFile.mk [7, 7] true) rfl⟩

/-! ### Theme data model (theme.cpp:101-129 and the fields used there) -/

/-- Modelled from the spec: the bounded integer wrapper used by
`ThemeData` is declared in `theme.h`, which is not among the provided
sources; spec §3/§4.1 define it as `(min, max, value)` where assignment
clamps into `[min, max]` and equality compares the current value only.
The declared ranges themselves are taken from the `ThemeData`
constructor (theme.cpp:103-118). -/
structure BoundedInt where
  lo : Int
  hi : Int
  val : Int
deriving DecidableEq, Repr

/-- Clamping assignment of a bounded integer (spec §4.1: `set(v)` stores
`clamp(v, min, max)`). -/
def BoundedInt.set (b : BoundedInt) (v : Int) : BoundedInt :=
  { b with val := max b.lo (min b.hi v) }

theorem BoundedInt.set_of_inRange (b : BoundedInt) (v : Int)
    (h1 : b.lo ≤ v) (h2 : v ≤ b.hi) : b.set v = { b with val := v } := by
  unfold BoundedInt.set
  have : max b.lo (min b.hi v) = v := by
    rw [min_eq_right h2]
    exact max_eq_right h1
  rw [this]

/-- RGBA color with 8-bit channels (`QColor`); `a = 255` is opaque. -/
structure QColor where
  r : Nat
  g : Nat
  b : Nat
  a : Nat
deriving DecidableEq, Repr

/-- Hex string of the RGB channels — `QColor::name()`, which emits
`#rrggbb` and therefore drops the alpha channel. -/
def QColor.name (c : QColor) : String :=
  String.mk ('#' :: (byteHex c.r ++ byteHex c.g ++ byteHex c.b))

def isHexChar (c : Char) : Bool :=
  (48 ≤ c.toNat && c.toNat ≤ 57) || (97 ≤ c.toNat && c.toNat ≤ 102) ||
    (65 ≤ c.toNat && c.toNat ≤ 70)

def hexVal (c : Char) : Nat :=
  if 48 ≤ c.toNat && c.toNat ≤ 57 then c.toNat - 48
  else if 97 ≤ c.toNat && c.toNat ≤ 102 then c.toNat - 87
  else if 65 ≤ c.toNat && c.toNat ≤ 70 then c.toNat - 55
  else 0

/-- Parsing a `#rrggbb` color name back into a `QColor` (the assignment
`QColor = QString` used throughout `Theme::reload`); the parsed color is
fully opaque.  Any other shape yields the invalid color, which Qt
renders as opaque black. -/
def parseColor (s : String) : QColor :=
  match s.data with
  | ['#', c1, c2, c3, c4, c5, c6] =>
    if (isHexChar c1 && isHexChar c2 && isHexChar c3 && isHexChar c4 &&
        isHexChar c5 && isHexChar c6) then
      QColor.mk (hexVal c1 * 16 + hexVal c2) (hexVal c3 * 16 + hexVal c4)
        (hexVal c5 * 16 + hexVal c6) 255
    else QColor.mk 0 0 0 255
  | _ => QColor.mk 0 0 0 255

theorem hexDigit_isHexChar : ∀ d : Nat, d < 16 → isHexChar (hexDigit d) = true := by
  decide

theorem hexVal_hexDigit : ∀ d : Nat, d < 16 → hexVal (hexDigit d) = d := by
  decide

/-- Round trip of the `#rrggbb` codec: parsing `name()` recovers the RGB
channels and forces alpha to 255. -/
theorem parseColor_name (c : QColor) (hr : c.r < 256) (hg : c.g < 256)
    (hb : c.b < 256) :
    parseColor (QColor.name c) = QColor.mk c.r c.g c.b 255 := by
  have hdr : c.r / 16 < 16 := Nat.div_lt_of_lt_mul (by omega)
  have hdg : c.g / 16 < 16 := Nat.div_lt_of_lt_mul (by omega)
  have hdb : c.b / 16 < 16 := Nat.div_lt_of_lt_mul (by omega)
  have hmr : c.r % 16 < 16 := Nat.mod_lt _ (by norm_num)
  have hmg : c.g % 16 < 16 := Nat.mod_lt _ (by norm_num)
  have hmb : c.b % 16 < 16 := Nat.mod_lt _ (by norm_num)
  show parseColor (String.mk ('#' :: (byteHex c.r ++ byteHex c.g ++ byteHex c.b))) = _
  unfold byteHex parseColor
  simp only [List.cons_append, List.nil_append]
  rw [hexDigit_isHexChar _ hdr, hexDigit_isHexChar _ hmr, hexDigit_isHexChar _ hdg,
    hexDigit_isHexChar _ hmg, hexDigit_isHexChar _ hdb, hexDigit_isHexChar _ hmb]
  simp only [Bool.and_self, if_true]
  rw [hexVal_hexDigit _ hdr, hexVal_hexDigit _ hmr, hexVal_hexDigit _ hdg,
    hexVal_hexDigit _ hmg, hexVal_hexDigit _ hdb, hexVal_hexDigit _ hmb]
  have hmod : ∀ n : Nat, n / 16 * 16 + n % 16 = n := fun n => by omega
  rw [hmod, hmod, hmod]

/-- The theme parameter set (`Theme::ThemeData`, theme.cpp:101-129; the
field list is the one used throughout theme.cpp).  Fonts are opaque to
this code, so `text_font` is the serialized `QFont` descriptor string
(`QFont::toString` / `fromString` are mutually inverse on it). -/
structure ThemeData where
  name : String
  background_type : BoundedInt
  background_color : QColor
  background_path : String
  background_image : String
  foreground_color : QColor
  foreground_opacity : BoundedInt
  foreground_width : BoundedInt
  foreground_rounding : BoundedInt
  foreground_margin : BoundedInt
  foreground_padding : BoundedInt
  foreground_position : BoundedInt
  blur_enabled : Bool
  blur_radius : BoundedInt
  shadow_enabled : Bool
  shadow_offset : BoundedInt
  shadow_radius : BoundedInt
  shadow_color : QColor
  text_color : QColor
  text_font : String
  misspelled_color : QColor
  indent_first_line : Bool
  line_spacing : BoundedInt
  paragraph_spacing_above : BoundedInt
  paragraph_spacing_below : BoundedInt
  tab_width : BoundedInt
deriving DecidableEq, Repr

/-- Field-by-field equality of `Theme::operator==` (theme.cpp:357-391);
bounded fields compare by current value (spec §3). -/
def themeEq (a b : ThemeData) : Bool :=
  (a.name == b.name)
  && (a.background_type.val == b.background_type.val)
  && (a.background_color == b.background_color)
  && (a.background_path == b.background_path)
  && (a.background_image == b.background_image)
  && (a.foreground_color == b.foreground_color)
  && (a.foreground_opacity.val == b.foreground_opacity.val)
  && (a.foreground_width.val == b.foreground_width.val)
  && (a.foreground_rounding.val == b.foreground_rounding.val)
  && (a.foreground_margin.val == b.foreground_margin.val)
  && (a.foreground_padding.val == b.foreground_padding.val)
  && (a.foreground_position.val == b.foreground_position.val)
  && (a.blur_enabled == b.blur_enabled)
  && (a.blur_radius.val == b.blur_radius.val)
  && (a.shadow_enabled == b.shadow_enabled)
  && (a.shadow_offset.val == b.shadow_offset.val)
  && (a.shadow_radius.val == b.shadow_radius.val)
  && (a.shadow_color == b.shadow_color)
  && (a.text_color == b.text_color)
  && (a.text_font == b.text_font)
  && (a.misspelled_color == b.misspelled_color)
  && (a.indent_first_line == b.indent_first_line)
  && (a.line_spacing.val == b.line_spacing.val)
  && (a.paragraph_spacing_above.val == b.paragraph_spacing_above.val)
  && (a.paragraph_spacing_below.val == b.paragraph_spacing_below.val)
  && (a.tab_width.val == b.tab_width.val)

/-- Size of the render target (`QSize`). -/
structure QSize where
  width : Int
  height : Int
deriving DecidableEq, Repr

/-- Rectangle as `QRect(x, y, w, h)`. -/
structure QRect where
  x : Int
  y : Int
  w : Int
  h : Int
deriving DecidableEq, Repr

namespace Theme

/-- Embedding of `Theme::foregroundRect` (theme.cpp:323-353).  C++ `int`
division truncates toward zero, hence `Int.div` in the Centered case.
The switch cases 0/2/3 are explicit; case 1 and every other value fall
to Centered. -/
def foregroundRect (d : ThemeData) (size : QSize) : QRect :=
  let margin := d.foreground_margin.val
  let y := margin
  let width := min d.foreground_width.val (size.width - margin * 2)
  let height := size.height - margin * 2
  if d.foreground_position.val = 0 then
    QRect.mk margin y width height
  else if d.foreground_position.val = 2 then
    QRect.mk (size.width - margin - width) y width height
  else if d.foreground_position.val = 3 then
    QRect.mk margin y (size.width - margin * 2) height
  else
    QRect.mk (Int.tdiv (size.width - width) 2) y width height

end Theme

/-- Concrete parameter set used by the layout examples of the spec:
margin 50, configured width 700, position as given; the remaining fields
are irrelevant to `foregroundRect`. -/
def layoutTheme (pos : Int) : ThemeData where
  name := "layout"
  background_type := BoundedInt.mk 0 5 0
  background_color := QColor.mk 204 204 204 255
  background_path := ""
  background_image := ""
  foreground_color := QColor.mk 204 204 204 255
  foreground_opacity := BoundedInt.mk 0 100 100
  foreground_width := BoundedInt.mk 500 9999 700
  foreground_rounding := BoundedInt.mk 0 100 0
  foreground_margin := BoundedInt.mk 1 250 50
  foreground_padding := BoundedInt.mk 0 250 0
  foreground_position := BoundedInt.mk 0 3 pos
  blur_enabled := false
  blur_radius := BoundedInt.mk 1 128 32
  shadow_enabled := false
  shadow_offset := BoundedInt.mk 0 128 2
  shadow_radius := BoundedInt.mk 1 128 8
  shadow_color := QColor.mk 0 0 0 255
  text_color := QColor.mk 0 0 0 255
  text_font := "Times New Roman"
  misspelled_color := QColor.mk 255 0 0 255
  indent_first_line := false
  line_spacing := BoundedInt.mk 50 1000 100
  paragraph_spacing_above := BoundedInt.mk 0 1000 0
  paragraph_spacing_below := BoundedInt.mk 0 1000 0
  tab_width := BoundedInt.mk 1 1000 48

/-- C4: the foreground panel layout.  For every parameter set and target
size, `foregroundRect` returns `y = margin`,
`height = size.height - 2*margin`,
`effectiveWidth = min(configuredWidth, size.width - 2*margin)` (with the
Stretched override), and the per-position `x`; every position value
other than 0, 2, 3 — recognized or not — lands in the Centered case.
The four concrete rects of the spec hold for size (1000, 600), margin
50, width 700. -/
theorem foregroundRect_layout :
    (∀ (d : ThemeData) (size : QSize),
      Theme.foregroundRect d size =
        { x :=
            if d.foreground_position.val = 0 then d.foreground_margin.val
            else if d.foreground_position.val = 2 then
              size.width - d.foreground_margin.val -
                min d.foreground_width.val (size.width - 2 * d.foreground_margin.val)
            else if d.foreground_position.val = 3 then d.foreground_margin.val
            else
              Int.tdiv (size.width -
                min d.foreground_width.val (size.width - 2 * d.foreground_margin.val)) 2,
          y := d.foreground_margin.val,
          w :=
            if d.foreground_position.val = 3 then
              size.width - 2 * d.foreground_margin.val
            else min d.foreground_width.val (size.width - 2 * d.foreground_margin.val),
          h := size.height - 2 * d.foreground_margin.val }) ∧
    Theme.foregroundRect (layoutTheme 1) (QSize.mk 1000 600) = QRect.mk 150 50 700 500 ∧
    Theme.foregroundRect (layoutTheme 0) (QSize.mk 1000 600) = QRect.mk 50 50 700 500 ∧
    Theme.foregroundRect (layoutTheme 2) (QSize.mk 1000 600) = QRect.mk 250 50 700 500 ∧
    Theme.foregroundRect (layoutTheme 3) (QSize.mk 1000 600) = QRect.mk 50 50 900 500 := by
  refine ⟨fun d size => ?_, by decide, by decide, by decide, by decide⟩
  unfold Theme.foregroundRect
  have h2 : size.width - d.foreground_margin.val * 2 =
      size.width - 2 * d.foreground_margin.val := by ring
  by_cases h0 : d.foreground_position.val = 0
  · simp [h0, h2]
    ring
  · by_cases hc2 : d.foreground_position.val = 2
    · simp [h0, hc2, h2]
      ring
    · by_cases h3 : d.foreground_position.val = 3
      · simp [h0, hc2, h3, h2]
        ring
      · simp [h0, hc2, h3, h2]
        ring

/-! ### Settings storage (`QSettings` with IniFormat) -/

/-- Typed settings value (`QVariant`), restricted to the types this code
stores: integers, booleans and strings. -/
inductive QVariant where
  | vInt (n : Int)
  | vBool (b : Bool)
  | vStr (s : String)
deriving DecidableEq, Repr

/-- Variant-to-int conversion (`QVariant::toInt`).  The string case is
never exercised by this code (ints are stored as ints). -/
def QVariant.toInt : QVariant → Int
  | .vInt n => n
  | .vBool b => if b then 1 else 0
  | .vStr _ => 0

/-- Variant-to-bool conversion (`QVariant::toBool`). -/
def QVariant.toBool : QVariant → Bool
  | .vBool b => b
  | .vInt n => n != 0
  | .vStr s => !(s == "" || s == "0" || s == "false")

/-- Variant-to-string conversion (`QVariant::toString`). -/
def QVariant.toStr : QVariant → String
  | .vStr s => s
  | .vInt n => toString n
  | .vBool b => if b then "true" else "false"

/-- One settings file: key/value pairs (`QSettings` on a single file). -/
def Settings := List (String × QVariant)

/-- Store or replace a key (`QSettings::setValue`). -/
def setValue (s : Settings) (key : String) (v : QVariant) : Settings :=
  (key, v) :: List.filter (fun e => e.1 != key) s

/-- Read a key with a default (`QSettings::value`). -/
def getValue (s : Settings) (key : String) (dflt : QVariant) : QVariant :=
  match List.find? (fun e => e.1 == key) s with
  | some e => e.2
  | none => dflt

theorem getValue_setValue_same (s : Settings) (key : String) (v dflt : QVariant) :
    getValue (setValue s key v) key dflt = v := by
  unfold getValue setValue
  simp [List.find?]

theorem find?_filter_ne (s : List (String × QVariant)) (key key' : String)
    (h : ¬(key = key')) :
    List.find? (fun e => e.1 == key') (List.filter (fun e => e.1 != key) s) =
      List.find? (fun e => e.1 == key') s := by
  induction s with
  | nil => rfl
  | cons e rest ih =>
    by_cases he : e.1 = key
    · rw [List.filter_cons_of_neg (by simp [he]),
        List.find?_cons_of_neg _ (by simp [he, h])]
      exact ih
    · rw [List.filter_cons_of_pos (by simp [he])]
      by_cases hk : e.1 = key'
      · rw [List.find?_cons_of_pos _ (by simp [hk]),
          List.find?_cons_of_pos _ (by simp [hk])]
      · rw [List.find?_cons_of_neg _ (by simp [hk]),
          List.find?_cons_of_neg _ (by simp [hk])]
        exact ih

theorem getValue_setValue_ne (s : Settings) (key key' : String) (v dflt : QVariant)
    (h : ¬(key = key')) :
    getValue (setValue s key v) key' dflt = getValue s key' dflt := by
  unfold getValue setValue
  rw [List.find?_cons_of_neg _ (by simp [h]), find?_filter_ne s key key' h]

/-- The theme store seen as a map from file path to settings file. -/
def Store := List (String × Settings)

/-- Settings of a file in the store; a missing file reads as empty
settings (every key falls back to its default). -/
def getFileSettings (st : Store) (path : String) : Settings :=
  match List.find? (fun e => e.1 == path) st with
  | some e => e.2
  | none => []

/-- Replace a whole settings file in the store (the effect of a
`QSettings` object syncing its file). -/
def setFileSettings (st : Store) (path : String) (s : Settings) : Store :=
  (path, s) :: List.filter (fun e => e.1 != path) st

theorem getFileSettings_setFileSettings_same (st : Store) (path : String) (s : Settings) :
    getFileSettings (setFileSettings st path s) path = s := by
  unfold getFileSettings setFileSettings
  simp [List.find?]

/-! ### Theme file paths (theme.cpp:275-285) -/

/-- Unreserved byte for percent-encoding: ALPHA / DIGIT / `-` / `.` /
`_` / `~`. -/
def isUnreservedByte (b : Nat) : Bool :=
  (48 ≤ b && b ≤ 57) || (65 ≤ b && b ≤ 90) || (97 ≤ b && b ≤ 122) ||
    b == 45 || b == 46 || b == 95 || b == 126

def hexDigitUpper (n : Nat) : Char :=
  if n < 10 then Char.ofNat (48 + n) else Char.ofNat (55 + n)

/-- Percent-encoding of one UTF-8 byte; the space byte is excluded from
encoding, matching `QUrl::toPercentEncoding(theme, " ")`. -/
def percentEncodeByte (b : Nat) : List Char :=
  if isUnreservedByte b || b == 32 then [Char.ofNat b]
  else ['%', hexDigitUpper (b / 16), hexDigitUpper (b % 16)]

def percentEncode (s : String) : String :=
  String.mk (((utf8Bytes s).map percentEncodeByte).flatten)

namespace Theme

/-- `Theme::filePath` (theme.cpp:275-278); `mpath` is the store root
(`m_path`), passed explicitly. -/
def filePath (mpath theme : String) : String :=
  mpath ++ "/" ++ percentEncode theme ++ ".theme"

/-- `Theme::iconPath` (theme.cpp:282-285). -/
def iconPath (mpath theme : String) : String :=
  mpath ++ "/" ++ percentEncode theme ++ ".png"

end Theme

/-! ### Persistence: `Theme::write` (theme.cpp:444-488) and
`Theme::reload` (theme.cpp:395-440) -/

namespace Theme

/-- The sequence of `settings.setValue` calls of `Theme::write`
(theme.cpp:453-487), applied to the settings file `s0` opened on the
theme's path.  `Background/Image` is stored only when the source path is
non-empty (theme.cpp:455-457); unmentioned keys of `s0` are left as they
are. -/
def writeSettings (d : ThemeData) (s0 : Settings) : Settings :=
  let s1 := setValue s0 "Background/Type" (QVariant.vInt d.background_type.val)
  let s2 := setValue s1 "Background/Color" (QVariant.vStr d.background_color.name)
  let s3 :=
    if d.background_path ≠ "" then
      setValue s2 "Background/Image" (QVariant.vStr d.background_path)
    else s2
  let s4 := setValue s3 "Background/ImageFile" (QVariant.vStr d.background_image)
  let s5 := setValue s4 "Foreground/Color" (QVariant.vStr d.foreground_color.name)
  let s6 := setValue s5 "Foreground/Opacity" (QVariant.vInt d.foreground_opacity.val)
  let s7 := setValue s6 "Foreground/Width" (QVariant.vInt d.foreground_width.val)
  let s8 := setValue s7 "Foreground/Rounding" (QVariant.vInt d.foreground_rounding.val)
  let s9 := setValue s8 "Foreground/Margin" (QVariant.vInt d.foreground_margin.val)
  let s10 := setValue s9 "Foreground/Padding" (QVariant.vInt d.foreground_padding.val)
  let s11 := setValue s10 "Foreground/Position" (QVariant.vInt d.foreground_position.val)
  let s12 := setValue s11 "ForegroundBlur/Enabled" (QVariant.vBool d.blur_enabled)
  let s13 := setValue s12 "ForegroundBlur/Radius" (QVariant.vInt d.blur_radius.val)
  let s14 := setValue s13 "ForegroundShadow/Enabled" (QVariant.vBool d.shadow_enabled)
  let s15 := setValue s14 "ForegroundShadow/Color" (QVariant.vStr d.shadow_color.name)
  let s16 := setValue s15 "ForegroundShadow/Radius" (QVariant.vInt d.shadow_radius.val)
  let s17 := setValue s16 "ForegroundShadow/Offset" (QVariant.vInt d.shadow_offset.val)
  let s18 := setValue s17 "Text/Color" (QVariant.vStr d.text_color.name)
  let s19 := setValue s18 "Text/Font" (QVariant.vStr d.text_font)
  let s20 := setValue s19 "Text/Misspelled" (QVariant.vStr d.misspelled_color.name)
  let s21 := setValue s20 "Spacings/IndentFirstLine" (QVariant.vBool d.indent_first_line)
  let s22 := setValue s21 "Spacings/LineSpacing" (QVariant.vInt d.line_spacing.val)
  let s23 := setValue s22 "Spacings/ParagraphAbove" (QVariant.vInt d.paragraph_spacing_above.val)
  let s24 := setValue s23 "Spacings/ParagraphBelow" (QVariant.vInt d.paragraph_spacing_below.val)
  setValue s24 "Spacings/TabWidth" (QVariant.vInt d.tab_width.val)

/-- Embedding of `Theme::write` (theme.cpp:444-488): a no-op for an
empty theme name, otherwise the settings file at `filePath` is updated
with every parameter. -/
def write (mpath : String) (d : ThemeData) (store : Store) : Store :=
  if d.name = "" then store
  else
    let file := filePath mpath d.name
    setFileSettings store file (writeSettings d (getFileSettings store file))

end Theme

/-- The filesystem state `Theme::reload` touches: the store of settings
files, the `Images/` directory, and the external filesystem (source
images looked up by path, for the re-interning branch at
theme.cpp:408-410). -/
structure World where
  store : Store
  images : ImagesDir
  extFiles : String → MFile

namespace Theme

/-- Embedding of `Theme::reload` (theme.cpp:395-440): a no-op for an
empty theme name; otherwise every parameter is read back from the
settings file at `filePath` with its documented default, bounded fields
clamping on assignment.  When a background source path is present but no
cached image name is, the source is re-interned via `copyImage`
(theme.cpp:408-410); `copyOk` is that copy's outcome.  Returns the
reloaded parameter set together with the (possibly extended) world. -/
def reload (mpath : String) (d : ThemeData) (w : World) (copyOk : Bool) :
    ThemeData × World :=
  if d.name = "" then (d, w)
  else
    let s := getFileSettings w.store (filePath mpath d.name)
    let background_type := d.background_type.set
      (getValue s "Background/Type" (QVariant.vInt 0)).toInt
    let background_color := parseColor
      (getValue s "Background/Color" (QVariant.vStr "#cccccc")).toStr
    let background_path := (getValue s "Background/Image" (QVariant.vStr "")).toStr
    let background_image0 := (getValue s "Background/ImageFile" (QVariant.vStr "")).toStr
    let reintern := background_path ≠ "" ∧ background_image0 = ""
    let copied := copyImage w.images background_path (w.extFiles background_path) copyOk
    let background_image := if reintern then copied.1 else background_image0
    let images' := if reintern then copied.2 else w.images
    let d' : ThemeData :=
      { name := d.name
        background_type := background_type
        background_color := background_color
        background_path := background_path
        background_image := background_image
        foreground_color := parseColor
          (getValue s "Foreground/Color" (QVariant.vStr "#cccccc")).toStr
        foreground_opacity := d.foreground_opacity.set
          (getValue s "Foreground/Opacity" (QVariant.vInt 100)).toInt
        foreground_width := d.foreground_width.set
          (getValue s "Foreground/Width" (QVariant.vInt 700)).toInt
        foreground_rounding := d.foreground_rounding.set
          (getValue s "Foreground/Rounding" (QVariant.vInt 0)).toInt
        foreground_margin := d.foreground_margin.set
          (getValue s "Foreground/Margin" (QVariant.vInt 65)).toInt
        foreground_padding := d.foreground_padding.set
          (getValue s "Foreground/Padding" (QVariant.vInt 0)).toInt
        foreground_position := d.foreground_position.set
          (getValue s "Foreground/Position" (QVariant.vInt 1)).toInt
        blur_enabled := (getValue s "ForegroundBlur/Enabled" (QVariant.vBool false)).toBool
        blur_radius := d.blur_radius.set
          (getValue s "ForegroundBlur/Radius" (QVariant.vInt 32)).toInt
        shadow_enabled := (getValue s "ForegroundShadow/Enabled" (QVariant.vBool false)).toBool
        shadow_color := parseColor
          (getValue s "ForegroundShadow/Color" (QVariant.vStr "#000000")).toStr
        shadow_radius := d.shadow_radius.set
          (getValue s "ForegroundShadow/Radius" (QVariant.vInt 8)).toInt
        shadow_offset := d.shadow_offset.set
          (getValue s "ForegroundShadow/Offset" (QVariant.vInt 2)).toInt
        text_color := parseColor (getValue s "Text/Color" (QVariant.vStr "#000000")).toStr
        text_font := (getValue s "Text/Font" (QVariant.vStr "Times New Roman")).toStr
        misspelled_color := parseColor
          (getValue s "Text/Misspelled" (QVariant.vStr "#ff0000")).toStr
        indent_first_line :=
          (getValue s "Spacings/IndentFirstLine" (QVariant.vBool false)).toBool
        line_spacing := d.line_spacing.set
          (getValue s "Spacings/LineSpacing" (QVariant.vInt 100)).toInt
        paragraph_spacing_above := d.paragraph_spacing_above.set
          (getValue s "Spacings/ParagraphAbove" (QVariant.vInt 0)).toInt
        paragraph_spacing_below := d.paragraph_spacing_below.set
          (getValue s "Spacings/ParagraphBelow" (QVariant.vInt 0)).toInt
        tab_width := d.tab_width.set
          (getValue s "Spacings/TabWidth" (QVariant.vInt 48)).toInt }
    (d', { w with images := images' })

end Theme

/-- C10: with an empty theme name, `write` is a complete no-op on the
store and `reload` changes neither the in-memory parameters nor the
world — an empty-named theme is never persisted and never overwritten
from storage. -/
theorem empty_name_write_reload_noop (mpath : String) (d : ThemeData)
    (store : Store) (w : World) (copyOk : Bool) (h : d.name = "") :
    Theme.write mpath d store = store ∧
    Theme.reload mpath d w copyOk = (d, w) := by
  unfold Theme.write Theme.reload
  rw [if_pos h, if_pos h]
  exact ⟨rfl, rfl⟩

/-- Concrete parameter set with an empty name, used as the C10
witness input. -/
def emptyNameTheme : ThemeData := { layoutTheme 1 with name := "" }

/-- Concrete world (empty store, empty Images directory, empty external
filesystem). -/
def emptyWorld : World :=
  World.mk [] (ImagesDir.mk []) (fun _ => MFile.mk [] false)

theorem empty_name_write_reload_noop_witness :
    emptyNameTheme.name = "" ∧
    (Theme.write "/themes" emptyNameTheme [] = [] ∧
     Theme.reload "/themes" emptyNameTheme emptyWorld true = (emptyNameTheme, emptyWorld)) :=
  ⟨rfl, empty_name_write_reload_noop "/themes" emptyNameTheme [] emptyWorld true rfl⟩

/-! ### Round-trip of persistence (spec §8) -/

/-- A bounded field carrying its declared range with the current value
inside it. -/
def BoundedInt.isWithin (b : BoundedInt) (lo hi : Int) : Prop :=
  b.lo = lo ∧ b.hi = hi ∧ lo ≤ b.val ∧ b.val ≤ hi

instance (b : BoundedInt) (lo hi : Int) : Decidable (b.isWithin lo hi) := by
  unfold BoundedInt.isWithin
  infer_instance

theorem BoundedInt.val_set_self (b : BoundedInt) (lo hi : Int)
    (h : b.isWithin lo hi) : (b.set b.val).val = b.val := by
  obtain ⟨h1, h2, h3, h4⟩ := h
  simp only [BoundedInt.set]
  omega

/-- All bounded fields of a parameter set have their declared ranges
(theme.cpp:103-118) and in-range values. -/
def ThemeData.wf (d : ThemeData) : Prop :=
  d.background_type.isWithin 0 5 ∧
  d.foreground_opacity.isWithin 0 100 ∧
  d.foreground_width.isWithin 500 9999 ∧
  d.foreground_rounding.isWithin 0 100 ∧
  d.foreground_margin.isWithin 1 250 ∧
  d.foreground_padding.isWithin 0 250 ∧
  d.foreground_position.isWithin 0 3 ∧
  d.blur_radius.isWithin 1 128 ∧
  d.shadow_offset.isWithin 0 128 ∧
  d.shadow_radius.isWithin 1 128 ∧
  d.line_spacing.isWithin 50 1000 ∧
  d.paragraph_spacing_above.isWithin 0 1000 ∧
  d.paragraph_spacing_below.isWithin 0 1000 ∧
  d.tab_width.isWithin 1 1000

instance (d : ThemeData) : Decidable d.wf := by
  unfold ThemeData.wf
  infer_instance

/-- Valid 8-bit channels with full alpha; `#rrggbb` persistence is exact
on such colors. -/
def QColor.validOpaque (c : QColor) : Prop :=
  c.r < 256 ∧ c.g < 256 ∧ c.b < 256 ∧ c.a = 255

instance (c : QColor) : Decidable c.validOpaque := by
  unfold QColor.validOpaque
  infer_instance

theorem parseColor_name_opaque (c : QColor) (h : c.validOpaque) :
    parseColor (QColor.name c) = c := by
  obtain ⟨hr, hg, hb, ha⟩ := h
  rw [parseColor_name c hr hg hb]
  cases c
  simp_all

theorem themeEq_refl (d : ThemeData) : themeEq d d = true := by
  simp [themeEq]

/-- Every key `Theme::write` stores reads back as the written value, and
`Background/Image` — written only for a non-empty source path — reads
back unchanged from the pre-existing file otherwise. -/
theorem writeSettings_getValue (d : ThemeData) (s0 : Settings) :
    getValue (Theme.writeSettings d s0) "Background/Type" (QVariant.vInt 0)
      = QVariant.vInt d.background_type.val ∧
    getValue (Theme.writeSettings d s0) "Background/Color" (QVariant.vStr "#cccccc")
      = QVariant.vStr d.background_color.name ∧
    getValue (Theme.writeSettings d s0) "Background/ImageFile" (QVariant.vStr "")
      = QVariant.vStr d.background_image ∧
    getValue (Theme.writeSettings d s0) "Foreground/Color" (QVariant.vStr "#cccccc")
      = QVariant.vStr d.foreground_color.name ∧
    getValue (Theme.writeSettings d s0) "Foreground/Opacity" (QVariant.vInt 100)
      = QVariant.vInt d.foreground_opacity.val ∧
    getValue (Theme.writeSettings d s0) "Foreground/Width" (QVariant.vInt 700)
      = QVariant.vInt d.foreground_width.val ∧
    getValue (Theme.writeSettings d s0) "Foreground/Rounding" (QVariant.vInt 0)
      = QVariant.vInt d.foreground_rounding.val ∧
    getValue (Theme.writeSettings d s0) "Foreground/Margin" (QVariant.vInt 65)
      = QVariant.vInt d.foreground_margin.val ∧
    getValue (Theme.writeSettings d s0) "Foreground/Padding" (QVariant.vInt 0)
      = QVariant.vInt d.foreground_padding.val ∧
    getValue (Theme.writeSettings d s0) "Foreground/Position" (QVariant.vInt 1)
      = QVariant.vInt d.foreground_position.val ∧
    getValue (Theme.writeSettings d s0) "ForegroundBlur/Enabled" (QVariant.vBool false)
      = QVariant.vBool d.blur_enabled ∧
    getValue (Theme.writeSettings d s0) "ForegroundBlur/Radius" (QVariant.vInt 32)
      = QVariant.vInt d.blur_radius.val ∧
    getValue (Theme.writeSettings d s0) "ForegroundShadow/Enabled" (QVariant.vBool false)
      = QVariant.vBool d.shadow_enabled ∧
    getValue (Theme.writeSettings d s0) "ForegroundShadow/Color" (QVariant.vStr "#000000")
      = QVariant.vStr d.shadow_color.name ∧
    getValue (Theme.writeSettings d s0) "ForegroundShadow/Radius" (QVariant.vInt 8)
      = QVariant.vInt d.shadow_radius.val ∧
    getValue (Theme.writeSettings d s0) "ForegroundShadow/Offset" (QVariant.vInt 2)
      = QVariant.vInt d.shadow_offset.val ∧
    getValue (Theme.writeSettings d s0) "Text/Color" (QVariant.vStr "#000000")
      = QVariant.vStr d.text_color.name ∧
    getValue (Theme.writeSettings d s0) "Text/Font" (QVariant.vStr "Times New Roman")
      = QVariant.vStr d.text_font ∧
    getValue (Theme.writeSettings d s0) "Text/Misspelled" (QVariant.vStr "#ff0000")
      = QVariant.vStr d.misspelled_color.name ∧
    getValue (Theme.writeSettings d s0) "Spacings/IndentFirstLine" (QVariant.vBool false)
      = QVariant.vBool d.indent_first_line ∧
    getValue (Theme.writeSettings d s0) "Spacings/LineSpacing" (QVariant.vInt 100)
      = QVariant.vInt d.line_spacing.val ∧
    getValue (Theme.writeSettings d s0) "Spacings/ParagraphAbove" (QVariant.vInt 0)
      = QVariant.vInt d.paragraph_spacing_above.val ∧
    getValue (Theme.writeSettings d s0) "Spacings/ParagraphBelow" (QVariant.vInt 0)
      = QVariant.vInt d.paragraph_spacing_below.val ∧
    getValue (Theme.writeSettings d s0) "Spacings/TabWidth" (QVariant.vInt 48)
      = QVariant.vInt d.tab_width.val ∧
    (d.background_path = "" →
      getValue (Theme.writeSettings d s0) "Background/Image" (QVariant.vStr "")
        = getValue s0 "Background/Image" (QVariant.vStr "")) ∧
    (d.background_path ≠ "" →
      getValue (Theme.writeSettings d s0) "Background/Image" (QVariant.vStr "")
        = QVariant.vStr d.background_path) := by
  by_cases hp : d.background_path = "" <;>
    (unfold Theme.writeSettings
     simp [hp, getValue_setValue_same, getValue_setValue_ne])

/-- C3 (amended): the persistence round-trip `reload ∘ write` preserves
a parameter set (under the value equality of `operator==`) whenever the
bounded fields are within their declared bounds, every color is a valid
fully-opaque RGB color (`name()` persists `#rrggbb`, dropping alpha), a
non-empty source path comes with a non-empty cached image name (else
`reload` re-interns), and — when the theme has no source path — the
pre-existing settings file holds no stale `Background/Image` key (write
does not clear keys it does not set). -/
theorem write_reload_roundtrip (mpath : String) (d : ThemeData) (store : Store)
    (images : ImagesDir) (ext : String → MFile) (copyOk : Bool)
    (hwf : ThemeData.wf d)
    (hcol : d.background_color.validOpaque ∧ d.foreground_color.validOpaque ∧
      d.shadow_color.validOpaque ∧ d.text_color.validOpaque ∧
      d.misspelled_color.validOpaque)
    (himg : d.background_path = "" ∨ d.background_image ≠ "")
    (hstale : d.background_path ≠ "" ∨
      (getValue (getFileSettings store (Theme.filePath mpath d.name)) "Background/Image"
        (QVariant.vStr "")).toStr = "") :
    themeEq
      (Theme.reload mpath d (World.mk (Theme.write mpath d store) images ext) copyOk).1 d
      = true := by
  obtain ⟨hbt, hfo, hfw, hfr, hfm, hfpd, hfpos, hbr, hso, hsr, hls, hpa, hpb, htw⟩ := hwf
  obtain ⟨hc1, hc2, hc3, hc4, hc5⟩ := hcol
  by_cases hname : d.name = ""
  · unfold Theme.reload Theme.write
    rw [if_pos hname, if_pos hname]
    exact themeEq_refl d
  · obtain ⟨g1, g2, g3, g4, g5, g6, g7, g8, g9, g10, g11, g12, g13, g14, g15, g16,
      g17, g18, g19, g20, g21, g22, g23, g24, gip, gim⟩ :=
      writeSettings_getValue d (getFileSettings store (Theme.filePath mpath d.name))
    simp only [Theme.write, Theme.reload, if_neg hname]
    rw [getFileSettings_setFileSettings_same]
    rw [g1, g2, g3, g4, g5, g6, g7, g8, g9, g10, g11, g12, g13, g14, g15, g16,
      g17, g18, g19, g20, g21, g22, g23, g24]
    by_cases hp : d.background_path = ""
    · rw [gip hp]
      have hs : (getValue (getFileSettings store (Theme.filePath mpath d.name))
          "Background/Image" (QVariant.vStr "")).toStr = "" := by
        cases hstale with
        | inl h => exact absurd hp h
        | inr h => exact h
      have hs2 := hs
      unfold QVariant.toStr at hs2
      rw [if_neg (by simp [hs])]
      unfold themeEq
      simp only [QVariant.toInt, QVariant.toStr, QVariant.toBool]
      rw [BoundedInt.val_set_self _ _ _ hbt, BoundedInt.val_set_self _ _ _ hfo,
        BoundedInt.val_set_self _ _ _ hfw, BoundedInt.val_set_self _ _ _ hfr,
        BoundedInt.val_set_self _ _ _ hfm, BoundedInt.val_set_self _ _ _ hfpd,
        BoundedInt.val_set_self _ _ _ hfpos, BoundedInt.val_set_self _ _ _ hbr,
        BoundedInt.val_set_self _ _ _ hso, BoundedInt.val_set_self _ _ _ hsr,
        BoundedInt.val_set_self _ _ _ hls, BoundedInt.val_set_self _ _ _ hpa,
        BoundedInt.val_set_self _ _ _ hpb, BoundedInt.val_set_self _ _ _ htw,
        parseColor_name_opaque _ hc1, parseColor_name_opaque _ hc2,
        parseColor_name_opaque _ hc3, parseColor_name_opaque _ hc4,
        parseColor_name_opaque _ hc5]
      simp [hs, hs2, hp]
    · rw [gim hp]
      have hi : d.background_image ≠ "" := by
        cases himg with
        | inl h => exact absurd h hp
        | inr h => exact h
      rw [if_neg (by simp [QVariant.toStr, hi])]
      unfold themeEq
      simp only [QVariant.toInt, QVariant.toStr, QVariant.toBool]
      rw [BoundedInt.val_set_self _ _ _ hbt, BoundedInt.val_set_self _ _ _ hfo,
        BoundedInt.val_set_self _ _ _ hfw, BoundedInt.val_set_self _ _ _ hfr,
        BoundedInt.val_set_self _ _ _ hfm, BoundedInt.val_set_self _ _ _ hfpd,
        BoundedInt.val_set_self _ _ _ hfpos, BoundedInt.val_set_self _ _ _ hbr,
        BoundedInt.val_set_self _ _ _ hso, BoundedInt.val_set_self _ _ _ hsr,
        BoundedInt.val_set_self _ _ _ hls, BoundedInt.val_set_self _ _ _ hpa,
        BoundedInt.val_set_self _ _ _ hpb, BoundedInt.val_set_self _ _ _ htw,
        parseColor_name_opaque _ hc1, parseColor_name_opaque _ hc2,
        parseColor_name_opaque _ hc3, parseColor_name_opaque _ hc4,
        parseColor_name_opaque _ hc5]
      simp

/-- Round-trip example theme: the layout parameters with a proper name;
all colors fully opaque, no background image. -/
def rtTheme : ThemeData := { layoutTheme 1 with name := "rt" }

/-- Round-trip failure input (alpha): a foreground color with alpha 128;
`name()` persists only `#rrggbb`, so the reloaded color is opaque. -/
def cexAlphaTheme : ThemeData :=
  { layoutTheme 1 with name := "t", foreground_color := QColor.mk 204 204 204 128 }

/-- Round-trip failure input (re-intern): a background source path with
an empty cached image name; `reload` re-interns the source and stores
the generated filename, changing `background_image`. -/
def cexReinternTheme : ThemeData :=
  { layoutTheme 1 with name := "t2", background_path := "p.png" }

/-- Round-trip failure input (stale key): no source path in memory, but
the pre-existing settings file carries a `Background/Image` key that
`write` does not clear. -/
def cexStaleTheme : ThemeData :=
  { layoutTheme 1 with name := "t3", background_image := "img.png" }

def cexStaleStore : Store :=
  [(Theme.filePath "/themes" "t3", [("Background/Image", QVariant.vStr "stale.png")])]

/-- A world around a given store: empty Images directory, every external
path holding a readable one-byte file. -/
def plainWorld (store : Store) : World :=
  World.mk store (ImagesDir.mk []) (fun _ => MFile.mk [1] true)

/-- C3 counterexample: the write-then-reload round-trip is not the
identity for every in-bounds parameter set.  It fails (i) for an RGBA
foreground color with alpha 128 (persisted as `#rrggbb`), (ii) for a
non-empty source path with an empty cached name (reload re-interns), and
(iii) for a pre-existing file with a stale `Background/Image` key. -/
theorem write_reload_roundtrip_counterexample :
    themeEq (Theme.reload "/themes" cexAlphaTheme
        (plainWorld (Theme.write "/themes" cexAlphaTheme [])) true).1 cexAlphaTheme
      = false ∧
    themeEq (Theme.reload "/themes" cexReinternTheme
        (plainWorld (Theme.write "/themes" cexReinternTheme [])) true).1 cexReinternTheme
      = false ∧
    themeEq (Theme.reload "/themes" cexStaleTheme
        (plainWorld (Theme.write "/themes" cexStaleTheme cexStaleStore)) true).1 cexStaleTheme
      = false := by
  exact ⟨by decide, by decide, by decide⟩

theorem write_reload_roundtrip_witness :
    ThemeData.wf rtTheme ∧
    (rtTheme.background_color.validOpaque ∧ rtTheme.foreground_color.validOpaque ∧
      rtTheme.shadow_color.validOpaque ∧ rtTheme.text_color.validOpaque ∧
      rtTheme.misspelled_color.validOpaque) ∧
    (rtTheme.background_path = "" ∨ rtTheme.background_image ≠ "") ∧
    themeEq (Theme.reload "/themes" rtTheme
      (World.mk (Theme.write "/themes" rtTheme []) (ImagesDir.mk [])
        (fun _ => MFile.mk [1] true)) true).1 rtTheme = true :=
  ⟨by decide, by decide, Or.inl rfl,
   write_reload_roundtrip "/themes" rtTheme [] (ImagesDir.mk [])
     (fun _ => MFile.mk [1] true) true (by decide) (by decide) (Or.inl rfl)
     (Or.inr (by decide))⟩

/-! ### Renaming (`Theme::setName`, theme.cpp:289-305) -/

/-- Modelled from the spec: the `Session` collaborator (session.cpp/h is
not among the provided sources).  Spec §6: each persisted session file
exposes `theme()` / `setTheme(name)`, and sessions are enumerable as the
list of session files plus one unsaved "current" session — the empty
filename the code prepends at theme.cpp:293.  A state holds the sessions
as `(session file, recorded theme name)` pairs (the `""` entry is the
current session) and the set of store files as a list of paths. -/
structure RenameState where
  sessions : List (String × String)
  files : List String
deriving DecidableEq, Repr

/-- Embedding of `Theme::setName` (theme.cpp:289-305): when the new name
differs from the current one, every session (the current one included)
whose recorded theme equals the old name is updated to the new name; the
old definition and icon files are removed; the in-memory name is set. -/
def Theme.setName (mpath : String) (d : ThemeData) (st : RenameState) (name : String) :
    ThemeData × RenameState :=
  if d.name = name then (d, st)
  else
    let sessions := st.sessions.map (fun p => if p.2 = d.name then (p.1, name) else p)
    let files := (st.files.filter (fun f => f != Theme.filePath mpath d.name)).filter
      (fun f => f != Theme.iconPath mpath d.name)
    ({ d with name := name }, RenameState.mk sessions files)

/-- C5: renaming a theme to a different name updates every persisted
session (the unsaved current session included) that recorded the old
name so that it reports the new name, leaves no session referencing the
old name, deletes the old definition and icon files from the store, and
the theme itself reports the new name. -/
theorem setName_rename_cascade (mpath : String) (d : ThemeData) (st : RenameState)
    (newName : String) (hne : newName ≠ d.name) :
    (Theme.setName mpath d st newName).1.name = newName ∧
    (∀ f t, (f, t) ∈ st.sessions → t = d.name →
      (f, newName) ∈ (Theme.setName mpath d st newName).2.sessions) ∧
    (∀ f t, (f, t) ∈ st.sessions → t ≠ d.name →
      (f, t) ∈ (Theme.setName mpath d st newName).2.sessions) ∧
    (∀ p ∈ (Theme.setName mpath d st newName).2.sessions, p.2 ≠ d.name) ∧
    Theme.filePath mpath d.name ∉ (Theme.setName mpath d st newName).2.files ∧
    Theme.iconPath mpath d.name ∉ (Theme.setName mpath d st newName).2.files := by
  have hcond : ¬(d.name = newName) := fun h => hne h.symm
  unfold Theme.setName
  rw [if_neg hcond]
  refine ⟨rfl, ?_, ?_, ?_, ?_, ?_⟩
  · intro f t hmem ht
    subst ht
    exact List.mem_map.2 ⟨(f, d.name), hmem, by simp⟩
  · intro f t hmem ht
    exact List.mem_map.2 ⟨(f, t), hmem, by simp [ht]⟩
  · intro p hp
    rw [List.mem_map] at hp
    obtain ⟨q, hq, hmap⟩ := hp
    by_cases h : q.2 = d.name
    · rw [if_pos h] at hmap
      rw [← hmap]
      exact hne
    · rw [if_neg h] at hmap
      rw [← hmap]
      exact h
  · intro hmem
    rw [List.mem_filter] at hmem
    rw [List.mem_filter] at hmem
    have := hmem.1.2
    simp at this
  · intro hmem
    rw [List.mem_filter] at hmem
    have := hmem.2
    simp at this

/-- The rename example of the spec: theme "Old" referenced by three
sessions (the current one included), with its definition and icon files
in the store. -/
def renameTheme : ThemeData := { layoutTheme 1 with name := "Old" }

def renameState : RenameState :=
  RenameState.mk [("a.session", "Old"), ("b.session", "Old"), ("", "Old")]
    [Theme.filePath "/themes" "Old", Theme.iconPath "/themes" "Old"]

theorem setName_rename_cascade_witness :
    "New" ≠ renameTheme.name ∧
    ((Theme.setName "/themes" renameTheme renameState "New").1.name = "New" ∧
    (∀ f t, (f, t) ∈ renameState.sessions → t = renameTheme.name →
      (f, "New") ∈ (Theme.setName "/themes" renameTheme renameState "New").2.sessions) ∧
    (∀ f t, (f, t) ∈ renameState.sessions → t ≠ renameTheme.name →
      (f, t) ∈ (Theme.setName "/themes" renameTheme renameState "New").2.sessions) ∧
    (∀ p ∈ (Theme.setName "/themes" renameTheme renameState "New").2.sessions,
      p.2 ≠ renameTheme.name) ∧
    Theme.filePath "/themes" renameTheme.name ∉
      (Theme.setName "/themes" renameTheme renameState "New").2.files ∧
    Theme.iconPath "/themes" renameTheme.name ∉
      (Theme.setName "/themes" renameTheme renameState "New").2.files) :=
  ⟨by decide, setName_rename_cascade "/themes" renameTheme renameState "New" (by decide)⟩

/-! ### Foreground alpha (`Theme::render`, theme.cpp:265-268)

`color.setAlpha(foregroundOpacity() * 2.55f)` promotes the int opacity
to `float` (exact for 0..100), multiplies by the single-precision
literal `2.55f` with IEEE-754 round-to-nearest-even, and the conversion
to the `int` parameter of `setAlpha` truncates the product toward zero.
The computation is modelled exactly; values are integer numerators at
the fixed scale `2^-22` (2.55 lies in `[2, 4)`, where the float ulp is
`2^-22`). -/

/-- Round `a / b` to the nearest integer, ties to even (`b > 0`). -/
def rnePos (a b : Nat) : Nat :=
  let q := a / b
  let r := a % b
  if b < 2 * r then q + 1
  else if 2 * r < b then q
  else if q % 2 = 0 then q else q + 1

/-- The single-precision value of the literal `2.55f`, as a numerator at
scale `2^-22`: `51/20` rounded half-even to a 24-bit significand. -/
def lit255f : Nat := rnePos (51 * 2 ^ 22) 20

/-- Base-2 logarithm (floor), fuel-structural so that it evaluates in
the kernel; 64 iterations cover every value this model produces. -/
def natLog2Aux : Nat → Nat → Nat
  | 0, _ => 0
  | fuel + 1, n => if 2 ≤ n then natLog2Aux fuel (n / 2) + 1 else 0

def natLog2 (n : Nat) : Nat := natLog2Aux 64 n

/-- Round a value `P * 2^-22` to the nearest single-precision float
(24-bit significand, round half-to-even), returned as a numerator at
scale `2^-22`.  Values below `2^24 * 2^-22` are exactly representable. -/
def froundScaled (P : Nat) : Nat :=
  if P < 2 ^ 24 then P
  else
    let s := natLog2 P - 23
    rnePos P (2 ^ s) * 2 ^ s

/-- The alpha stored by theme.cpp:267 for a given opacity percentage:
the single-precision product `opacity * 2.55f`, truncated toward zero. -/
def alphaOfOpacity (op : Nat) : Nat :=
  froundScaled (op * lit255f) / 2 ^ 22

/-- C6 counterexample: at opacity 1 the code stores alpha 2 — the
single-precision product `1 * 2.55f` is 2.54999995…, truncated to 2 —
while `round(1 × 2.55) = 3`. -/
theorem render_alpha_not_round :
    alphaOfOpacity 1 = 2 ∧ round ((1 : ℚ) * (51 / 20)) = 3 ∧
    alphaOfOpacity 1 ≠ 3 := by
  refine ⟨by decide, ?_, by decide⟩
  rw [round_eq]
  norm_num

/-- C6 (amended): for every opacity in 0..100 the stored foreground
alpha is the truncation `⌊opacity × 2.55⌋` (the single-precision product
truncated toward zero, which on this range equals the exact floor
`opacity * 51 / 20`); in particular opacity 100 gives 255 and opacity 0
gives 0. -/
theorem render_alpha_floor :
    (∀ op : Nat, op < 101 →
      alphaOfOpacity op = op * 51 / 20 ∧
      20 * alphaOfOpacity op ≤ op * 51 ∧ op * 51 < 20 * alphaOfOpacity op + 20) ∧
    alphaOfOpacity 100 = 255 ∧ alphaOfOpacity 0 = 0 := by
  refine ⟨by decide, by decide, by decide⟩

theorem render_alpha_floor_witness :
    1 < 101 ∧
    (alphaOfOpacity 1 = 1 * 51 / 20 ∧
      20 * alphaOfOpacity 1 ≤ 1 * 51 ∧ 1 * 51 < 20 * alphaOfOpacity 1 + 20) :=
  ⟨by decide, render_alpha_floor.1 1 (by decide)⟩

/-! ### Garbage collection (`Theme::copyBackgrounds`, theme.cpp:148-176)

The pass walks every `*.theme` settings file: a theme with a source path
whose cached filename is empty or missing from the Images directory is
re-interned (the resulting name written back); the cached names of all
themes are collected and every file of the directory not among them is
deleted.  The embedding also counts `copyImage` invocations and
deletions so the idempotence claim can speak about them. -/

/-- `settings.value("Background/Image").toString()` (theme.cpp:157). -/
def gcReadPath (s : Settings) : String :=
  (getValue s "Background/Image" (QVariant.vStr "")).toStr

/-- `settings.value("Background/ImageFile").toString()` (theme.cpp:158). -/
def gcReadImage (s : Settings) : String :=
  (getValue s "Background/ImageFile" (QVariant.vStr "")).toStr

/-- Accumulator of the copy loop (theme.cpp:154-167): themes processed
so far (with any written-back cached names), the current Images
directory, the referenced names collected in `images`, and the number of
`copyImage` invocations. -/
structure GCAcc where
  processed : List Settings
  dir : ImagesDir
  refs : List String
  copies : Nat

/-- One iteration of the copy loop (theme.cpp:155-167). -/
def gcStep (ext : String → MFile) (copyOk : Bool) (acc : GCAcc) (th : Settings) : GCAcc :=
  let p := gcReadPath th
  let img := gcReadImage th
  if p = "" ∧ img = "" then
    { acc with processed := acc.processed ++ [th] }
  else if p ≠ "" ∧ (img = "" ∨ acc.dir.existsFile img = false) then
    let c := copyImage acc.dir p (ext p) copyOk
    { processed := acc.processed ++ [setValue th "Background/ImageFile" (QVariant.vStr c.1)],
      dir := c.2,
      refs := acc.refs ++ [c.1],
      copies := acc.copies + 1 }
  else
    { acc with processed := acc.processed ++ [th], refs := acc.refs ++ [img] }

/-- Result of one GC pass: the theme files after the pass, the Images
directory after the deletion sweep (theme.cpp:170-175), the number of
`copyImage` invocations, and the number of deleted files. -/
structure GCResult where
  themes : List Settings
  dir : ImagesDir
  copies : Nat
  deleted : Nat

/-- Embedding of `Theme::copyBackgrounds` (theme.cpp:148-176).  `ext`
resolves a source path to its file; `copyOk` is the outcome of the byte
copies (the C++ ignores it). -/
def Theme.copyBackgrounds (themes : List Settings) (dir : ImagesDir)
    (ext : String → MFile) (copyOk : Bool) : GCResult :=
  let a := themes.foldl (gcStep ext copyOk) (GCAcc.mk [] dir [] 0)
  let keep := a.dir.entries.filter (fun e => a.refs.contains e.1)
  GCResult.mk a.processed (ImagesDir.mk keep) a.copies
    (a.dir.entries.length - keep.length)

/-- A theme the copy-loop passes over without re-interning, relative to
a directory: either no source path, or a non-empty cached name present
in the directory. -/
def gcGood (dir : ImagesDir) (th : Settings) : Prop :=
  gcReadPath th = "" ∨
    (gcReadImage th ≠ "" ∧ dir.existsFile (gcReadImage th) = true)

/-- The cached name a theme contributes to the referenced set (`none`
for a theme with neither path nor cached name, theme.cpp:159-161). -/
def gcContrib (th : Settings) : Option String :=
  if gcReadPath th = "" ∧ gcReadImage th = "" then none else some (gcReadImage th)

def gcContribs (l : List Settings) : List String := l.filterMap gcContrib

theorem existsFile_of_mem (entries : List (String × MFile)) (n : String) (f : MFile)
    (h : (n, f) ∈ entries) : (ImagesDir.mk entries).existsFile n = true := by
  unfold ImagesDir.existsFile
  rw [List.any_eq_true]
  exact ⟨(n, f), h, by simp⟩

theorem existsFile_mono (d : ImagesDir) (tail : List (String × MFile)) (n : String)
    (h : d.existsFile n = true) :
    (ImagesDir.mk (d.entries ++ tail)).existsFile n = true := by
  unfold ImagesDir.existsFile at h ⊢
  rw [List.any_eq_true] at h ⊢
  obtain ⟨e, he, hb⟩ := h
  exact ⟨e, List.mem_append_left _ he, hb⟩

theorem findMatch_mem (src : MFile) :
    ∀ (l : List (String × MFile)) (n : String),
      findMatch src l = some n → ∃ f, (n, f) ∈ l := by
  intro l
  induction l with
  | nil => intro n h; simp [findMatch] at h
  | cons e rest ih =>
    intro n h
    unfold findMatch at h
    by_cases hc : compareFiles src e.2
    · rw [if_pos hc] at h
      cases h
      exact ⟨e.2, List.mem_cons_self e rest⟩
    · rw [if_neg hc] at h
      obtain ⟨f, hf⟩ := ih n h
      exact ⟨f, List.mem_cons_of_mem _ hf⟩

theorem candidateName_ne_empty (base suffix : String) (id : Nat) :
    candidateName base suffix id ≠ "" := by
  have hdot : (".").data = ['.'] := rfl
  have hnil : ("" : String).data = [] := rfl
  unfold candidateName
  split <;>
    (intro h
     have hd := congrArg String.data h
     simp only [String.data_append] at hd
     simp [hdot, hnil] at hd)

theorem resolveNameAux_shape (d : ImagesDir) (base suffix : String) :
    ∀ fuel id, ∃ k, resolveNameAux d base suffix fuel id = candidateName base suffix k := by
  intro fuel
  induction fuel with
  | zero => intro id; exact ⟨id, rfl⟩
  | succ fuel ih =>
    intro id
    unfold resolveNameAux
    split
    · exact ih (id + 1)
    · exact ⟨id, rfl⟩

theorem resolveName_ne_empty (d : ImagesDir) (base suffix : String) :
    resolveName d base suffix ≠ "" := by
  unfold resolveName
  obtain ⟨k, hk⟩ := resolveNameAux_shape d base suffix (d.entries.length + 1) 0
  rw [hk]
  exact candidateName_ne_empty base suffix k

/-- With a succeeding copy, `copyImage` returns a non-empty filename
that exists in the (only ever extended) resulting directory, and empty
names never appear in it. -/
theorem copyImage_preserves (d : ImagesDir) (image : String) (src : MFile)
    (hne : ∀ e ∈ d.entries, e.1 ≠ "") :
    (copyImage d image src true).1 ≠ "" ∧
    (∃ tail, (copyImage d image src true).2.entries = d.entries ++ tail) ∧
    (∀ e ∈ (copyImage d image src true).2.entries, e.1 ≠ "") ∧
    (copyImage d image src true).2.existsFile (copyImage d image src true).1 = true := by
  cases hm : findMatch src d.entries with
  | some n =>
    have hstep : copyImage d image src true = (n, d) := by
      unfold copyImage
      rw [hm]
    rw [hstep]
    obtain ⟨f, hf⟩ := findMatch_mem src d.entries n hm
    exact ⟨hne (n, f) hf, ⟨[], by simp⟩, hne, existsFile_of_mem d.entries n f hf⟩
  | none =>
    have hstep : copyImage d image src true =
        (resolveName d (sha1Hex (utf8Bytes image)) (strToLower (pathSuffix image)),
         ImagesDir.mk (d.entries ++
           [(resolveName d (sha1Hex (utf8Bytes image)) (strToLower (pathSuffix image)),
             MFile.mk src.content true)])) := by
      unfold copyImage
      rw [hm]
      rfl
    rw [hstep]
    refine ⟨resolveName_ne_empty d _ _, ⟨_, rfl⟩, ?_, ?_⟩
    · intro e he
      rw [List.mem_append] at he
      cases he with
      | inl h => exact hne e h
      | inr h =>
        rw [List.mem_singleton] at h
        rw [h]
        exact resolveName_ne_empty d _ _
    · exact existsFile_of_mem _ _ _ (List.mem_append_right _ (List.mem_singleton.2 rfl))

/-- The copy loop over themes that are all `gcGood` for the current
directory: no re-interning happens; the directory and copy count are
untouched and each theme contributes its stored cached name. -/
theorem gcLoop_noop (ext : String → MFile) (ok : Bool) :
    ∀ (l : List Settings) (acc : GCAcc),
      (∀ th ∈ l, gcGood acc.dir th) →
      l.foldl (gcStep ext ok) acc =
        GCAcc.mk (acc.processed ++ l) acc.dir (acc.refs ++ gcContribs l) acc.copies := by
  intro l
  induction l with
  | nil =>
    intro acc _
    cases acc
    simp [gcContribs]
  | cons th rest ih =>
    intro acc hgood
    have hth := hgood th (List.mem_cons_self th rest)
    rw [List.foldl_cons]
    rcases hth with hp | ⟨hi, he⟩
    · by_cases himg : gcReadImage th = ""
      · have hstep : gcStep ext ok acc th =
            { acc with processed := acc.processed ++ [th] } := by
          unfold gcStep
          rw [if_pos ⟨hp, himg⟩]
        rw [hstep]
        rw [ih { acc with processed := acc.processed ++ [th] }
          (fun t ht => hgood t (List.mem_cons_of_mem th ht))]
        simp [gcContribs, gcContrib, hp, himg]
      · have hstep : gcStep ext ok acc th =
            { acc with processed := acc.processed ++ [th],
                       refs := acc.refs ++ [gcReadImage th] } := by
          unfold gcStep
          rw [if_neg (fun hcon => himg hcon.2), if_neg (fun hcon => hcon.1 hp)]
        rw [hstep]
        rw [ih { acc with processed := acc.processed ++ [th],
                          refs := acc.refs ++ [gcReadImage th] }
          (fun t ht => hgood t (List.mem_cons_of_mem th ht))]
        simp [gcContribs, gcContrib, himg]
    · have hcond2 : ¬(gcReadPath th ≠ "" ∧
          (gcReadImage th = "" ∨ acc.dir.existsFile (gcReadImage th) = false)) := by
        intro hcon
        rcases hcon.2 with h1 | h2
        · exact hi h1
        · rw [he] at h2
          exact Bool.noConfusion h2
      have hstep : gcStep ext ok acc th =
          { acc with processed := acc.processed ++ [th],
                     refs := acc.refs ++ [gcReadImage th] } := by
        unfold gcStep
        rw [if_neg (fun hcon => hi hcon.2), if_neg hcond2]
      rw [hstep]
      rw [ih { acc with processed := acc.processed ++ [th],
                        refs := acc.refs ++ [gcReadImage th] }
        (fun t ht => hgood t (List.mem_cons_of_mem th ht))]
      simp [gcContribs, gcContrib, hi]

theorem gcReadImage_setImage (th : Settings) (x : String) :
    gcReadImage (setValue th "Background/ImageFile" (QVariant.vStr x)) = x := by
  unfold gcReadImage
  rw [getValue_setValue_same]
  rfl

theorem gcReadPath_setImage (th : Settings) (x : String) :
    gcReadPath (setValue th "Background/ImageFile" (QVariant.vStr x)) = gcReadPath th := by
  unfold gcReadPath
  rw [getValue_setValue_ne _ _ _ _ _ (by decide)]

/-- After one run of the copy loop (all copies succeeding) starting from
a directory without empty filenames: the directory has only grown, the
collected references are exactly the contributions of the processed
themes, and every processed theme either has no source path or has a
non-empty cached name that exists in the resulting directory and is
among the collected references. -/
theorem gcLoop_run1 (ext : String → MFile) :
    ∀ (l : List Settings) (acc : GCAcc),
      (∀ e ∈ acc.dir.entries, e.1 ≠ "") →
      ∃ (nt : List Settings) (nd : List (String × MFile)) (cnt : Nat),
        l.foldl (gcStep ext true) acc =
          GCAcc.mk (acc.processed ++ nt) (ImagesDir.mk (acc.dir.entries ++ nd))
            (acc.refs ++ gcContribs nt) cnt ∧
        (∀ e ∈ acc.dir.entries ++ nd, e.1 ≠ "") ∧
        (∀ th ∈ nt, gcReadPath th = "" ∨
          (gcReadImage th ≠ "" ∧
           (ImagesDir.mk (acc.dir.entries ++ nd)).existsFile (gcReadImage th) = true ∧
           gcReadImage th ∈ acc.refs ++ gcContribs nt)) := by
  intro l
  induction l with
  | nil =>
    intro acc hne
    refine ⟨[], [], acc.copies, ?_, by simpa using hne, by simp⟩
    rcases acc with ⟨pr, ⟨en⟩, rf, cp⟩
    simp [gcContribs]
  | cons th rest ih =>
    intro acc hne
    rw [List.foldl_cons]
    by_cases h1 : gcReadPath th = "" ∧ gcReadImage th = ""
    · -- skipped theme (theme.cpp:159-161)
      have hstep : gcStep ext true acc th =
          { acc with processed := acc.processed ++ [th] } := by
        unfold gcStep
        rw [if_pos h1]
      rw [hstep]
      obtain ⟨nt', nd', cnt, hfold, hnames, hgood⟩ :=
        ih { acc with processed := acc.processed ++ [th] } hne
      refine ⟨th :: nt', nd', cnt, ?_, hnames, ?_⟩
      · rw [hfold]
        simp [gcContribs, gcContrib, h1.1, h1.2]
      · intro t ht
        rcases List.mem_cons.1 ht with rfl | hmem
        · exact Or.inl h1.1
        · have := hgood t hmem
          simpa [gcContribs, gcContrib, h1.1, h1.2] using this
    · by_cases h2 : gcReadPath th ≠ "" ∧
          (gcReadImage th = "" ∨ acc.dir.existsFile (gcReadImage th) = false)
      · -- re-interning branch (theme.cpp:162-165)
        obtain ⟨hc1, ⟨tail, hc2⟩, hc3, hc4⟩ :=
          copyImage_preserves acc.dir (gcReadPath th) (ext (gcReadPath th)) hne
        set c := copyImage acc.dir (gcReadPath th) (ext (gcReadPath th)) true with hc
        set th' := setValue th "Background/ImageFile" (QVariant.vStr c.1) with hth'
        have hstep : gcStep ext true acc th =
            GCAcc.mk (acc.processed ++ [th']) c.2 (acc.refs ++ [c.1]) (acc.copies + 1) := by
          unfold gcStep
          rw [if_neg h1, if_pos h2]
        rw [hstep]
        obtain ⟨nt', nd', cnt, hfold, hnames, hgood⟩ :=
          ih (GCAcc.mk (acc.processed ++ [th']) c.2 (acc.refs ++ [c.1]) (acc.copies + 1))
            (by simpa [hc2] using hc3)
        have himg' : gcReadImage th' = c.1 := gcReadImage_setImage th c.1
        have hpath' : gcReadPath th' = gcReadPath th := gcReadPath_setImage th c.1
        have hcontrib : gcContrib th' = some c.1 := by
          unfold gcContrib
          rw [if_neg (fun hcon => h2.1 (by rw [← hpath']; exact hcon.1)), himg']
        refine ⟨th' :: nt', tail ++ nd', cnt, ?_, ?_, ?_⟩
        · rw [hfold]
          simp only [gcContribs, List.filterMap_cons, hcontrib]
          simp [hc2, List.append_assoc]
        · intro e he
          apply hnames
          rw [hc2] at *
          simpa [List.append_assoc] using he
        · intro t ht
          rcases List.mem_cons.1 ht with rfl | hmem
          · refine Or.inr ⟨by rw [himg']; exact hc1, ?_, ?_⟩
            · rw [himg']
              have : (ImagesDir.mk (c.2.entries ++ nd')).existsFile c.1 = true :=
                existsFile_mono c.2 nd' c.1 hc4
              rw [hc2] at this
              simpa [List.append_assoc] using this
            · rw [himg']
              simp only [gcContribs, List.filterMap_cons, hcontrib]
              simp
          · have hg := hgood t hmem
            rcases hg with hg | ⟨hgi, hge, hgm⟩
            · exact Or.inl hg
            · refine Or.inr ⟨hgi, ?_, ?_⟩
              · rw [hc2] at hge
                simpa [List.append_assoc] using hge
              · simp only [gcContribs, List.filterMap_cons, hcontrib]
                simpa [gcContribs, List.append_assoc] using hgm
      · -- untouched theme with a usable cached name (or no path)
        have hstep : gcStep ext true acc th =
            { acc with processed := acc.processed ++ [th],
                       refs := acc.refs ++ [gcReadImage th] } := by
          unfold gcStep
          rw [if_neg h1, if_neg h2]
        rw [hstep]
        obtain ⟨nt', nd', cnt, hfold, hnames, hgood⟩ :=
          ih { acc with processed := acc.processed ++ [th],
                        refs := acc.refs ++ [gcReadImage th] } hne
        have hcontrib : gcContrib th = some (gcReadImage th) := by
          unfold gcContrib
          rw [if_neg h1]
        refine ⟨th :: nt', nd', cnt, ?_, hnames, ?_⟩
        · rw [hfold]
          simp only [gcContribs, List.filterMap_cons, hcontrib]
          simp [List.append_assoc]
        · intro t ht
          rcases List.mem_cons.1 ht with rfl | hmem
          · by_cases hp : gcReadPath t = ""
            · exact Or.inl hp
            · push_neg at h2
              obtain ⟨hgi, hge⟩ := h2 hp
              refine Or.inr ⟨hgi, ?_, ?_⟩
              · have : acc.dir.existsFile (gcReadImage t) = true := by
                  cases hb : acc.dir.existsFile (gcReadImage t) with
                  | true => rfl
                  | false => exact absurd hb hge
                exact existsFile_mono acc.dir nd' _ this
              · simp only [gcContribs, List.filterMap_cons, hcontrib]
                simp
          · have hg := hgood t hmem
            rcases hg with hg | ⟨hgi, hge, hgm⟩
            · exact Or.inl hg
            · refine Or.inr ⟨hgi, hge, ?_⟩
              simp only [gcContribs, List.filterMap_cons, hcontrib]
              simpa [gcContribs, List.append_assoc] using hgm

theorem contains_of_mem (l : List String) (x : String) (h : x ∈ l) :
    l.contains x = true :=
  List.elem_eq_true_of_mem h

theorem existsFile_filter (entries : List (String × MFile)) (refs : List String)
    (n : String) (he : (ImagesDir.mk entries).existsFile n = true) (hr : n ∈ refs) :
    (ImagesDir.mk (entries.filter (fun e => refs.contains e.1))).existsFile n = true := by
  unfold ImagesDir.existsFile at he ⊢
  rw [List.any_eq_true] at he ⊢
  obtain ⟨e, hmem, hb⟩ := he
  have heq : e.1 = n := by simpa using hb
  refine ⟨e, List.mem_filter.2 ⟨hmem, ?_⟩, hb⟩
  rw [heq]
  exact contains_of_mem refs n hr

/-- C8: the garbage-collection pass is idempotent.  Starting from an
Images directory without empty filenames and with every byte copy
succeeding, a second run directly after a first one returns the same
theme files and the same directory, performs no `copyImage` invocation
and deletes nothing. -/
theorem copyBackgrounds_idempotent (themes : List Settings) (dir : ImagesDir)
    (ext : String → MFile) (hne : ∀ e ∈ dir.entries, e.1 ≠ "") :
    Theme.copyBackgrounds
      (Theme.copyBackgrounds themes dir ext true).themes
      (Theme.copyBackgrounds themes dir ext true).dir ext true =
    GCResult.mk (Theme.copyBackgrounds themes dir ext true).themes
      (Theme.copyBackgrounds themes dir ext true).dir 0 0 := by
  obtain ⟨nt, nd, cnt, hfold, hnames, hgood⟩ :=
    gcLoop_run1 ext themes (GCAcc.mk [] dir [] 0) hne
  have hr1 : Theme.copyBackgrounds themes dir ext true =
      GCResult.mk nt
        (ImagesDir.mk ((dir.entries ++ nd).filter (fun e => (gcContribs nt).contains e.1)))
        cnt
        ((dir.entries ++ nd).length -
          ((dir.entries ++ nd).filter (fun e => (gcContribs nt).contains e.1)).length) := by
    unfold Theme.copyBackgrounds
    rw [hfold]
    simp
  have hgood2 : ∀ th ∈ nt,
      gcGood (ImagesDir.mk ((dir.entries ++ nd).filter
        (fun e => (gcContribs nt).contains e.1))) th := by
    intro th ht
    rcases hgood th ht with hp | ⟨hi, he, hm⟩
    · exact Or.inl hp
    · refine Or.inr ⟨hi, ?_⟩
      have hm' : gcReadImage th ∈ gcContribs nt := by simpa using hm
      exact existsFile_filter (dir.entries ++ nd) (gcContribs nt) _ he hm'
  have hkeep : ((dir.entries ++ nd).filter (fun e => (gcContribs nt).contains e.1)).filter
      (fun e => (gcContribs nt).contains e.1) =
      (dir.entries ++ nd).filter (fun e => (gcContribs nt).contains e.1) :=
    List.filter_eq_self.2 (fun e he => (List.mem_filter.1 he).2)
  have hr2 : Theme.copyBackgrounds nt
      (ImagesDir.mk ((dir.entries ++ nd).filter (fun e => (gcContribs nt).contains e.1)))
      ext true =
      GCResult.mk nt
        (ImagesDir.mk ((dir.entries ++ nd).filter (fun e => (gcContribs nt).contains e.1)))
        0 0 := by
    unfold Theme.copyBackgrounds
    rw [gcLoop_noop ext true nt
      (GCAcc.mk []
        (ImagesDir.mk ((dir.entries ++ nd).filter (fun e => (gcContribs nt).contains e.1)))
        [] 0) hgood2]
    simp [hkeep]
  rw [hr1]
  exact hr2

/-- GC example: one theme referencing a stored image by name, a second
stored file that nothing references (it is deleted by the first run). -/
def gcTheme : Settings := [("Background/ImageFile", QVariant.vStr "x.png")]

def gcDir : ImagesDir :=
  ImagesDir.mk [("x.png", MFile.mk [1] true), ("unused.png", MFile.mk [2] true)]

theorem copyBackgrounds_idempotent_witness :
    (∀ e ∈ gcDir.entries, e.1 ≠ "") ∧
    Theme.copyBackgrounds
      (Theme.copyBackgrounds [gcTheme] gcDir (fun _ => MFile.mk [1] true) true).themes
      (Theme.copyBackgrounds [gcTheme] gcDir (fun _ => MFile.mk [1] true) true).dir
      (fun _ => MFile.mk [1] true) true =
    GCResult.mk
      (Theme.copyBackgrounds [gcTheme] gcDir (fun _ => MFile.mk [1] true) true).themes
      (Theme.copyBackgrounds [gcTheme] gcDir (fun _ => MFile.mk [1] true) true).dir 0 0 :=
  ⟨by decide,
   copyBackgrounds_idempotent [gcTheme] gcDir (fun _ => MFile.mk [1] true) (by decide)⟩
